import Mathlib

/-!
Verification of the context-assembly subsystem of minimal-terminal-ai.

The Python sources under src/ are shallowly embedded as Lean definitions:
pure functions become Lean functions, mutable objects (FileSystemManager's
context store, paste store, navigation state) become explicit state records
with state-passing functions, and fallible operations return Except/Option.
Filesystem effects (path resolution, stat, file reads) are abstracted as
oracle parameters; everything else is translated statement by statement
from the source files named in each doc comment.
-/

namespace MinimalTerminalAI

/-! ### Decimal rendering of natural numbers (Python str(int) / format specs) -/

/-- Least-significant-first decimal digits of n, with explicit fuel so the
definition is structural. Fuel n is enough: each step divides by 10. -/
def natDigitsAux : Nat → Nat → List Nat
  | 0, _ => []
  | fuel + 1, n => if n = 0 then [] else n % 10 :: natDigitsAux fuel (n / 10)

/-- Least-significant-first decimal digits of n. -/
def natDigitsLE (n : Nat) : List Nat := natDigitsAux n n

/-- The decimal digit d (0..9) as a character. -/
def digitChar (d : Nat) : Char := Char.ofNat (48 + d)

/-- The numeric value of a decimal digit character. -/
def charDigit (c : Char) : Nat := c.toNat - 48

/-- Python's str(n) for a nonnegative integer: decimal, no sign, no padding. -/
def natToString (n : Nat) : String :=
  if n = 0 then "0" else String.mk (((natDigitsLE n).reverse).map digitChar)

/-- Value of a least-significant-first digit list. -/
def digitsVal : List Nat → Nat
  | [] => 0
  | d :: ds => d + 10 * digitsVal ds

/-- Value of a most-significant-first decimal character string. -/
def msdVal (cs : List Char) : Nat :=
  cs.foldl (fun a c => 10 * a + charDigit c) 0

/-! ### PathValidator.is_path_allowed (src/utils/validators.py, lines 18-32)

Canonical absolute paths are modelled as lists of components. Path.resolve
is an effectful operation (it follows symlinks and can raise), so it is an
oracle `P → Option (List String)`, with none for any exception. -/

/-- Path.is_relative_to on canonical paths: true iff the components of
base are a leading segment of the components of p. -/
def path_is_relative_to : List String → List String → Bool
  | _, [] => true
  | [], _ :: _ => false
  | x :: xs, b :: bs => x == b && path_is_relative_to xs bs

/-- PathValidator.is_path_allowed: resolve the target (any exception gives
none and the except branch returns False), then test is_relative_to home. -/
def is_path_allowed {P : Type} (resolvePath : P → Option (List String))
    (home_dir : List String) (target_path : P) : Bool :=
  match resolvePath target_path with
  | none => false
  | some resolved => path_is_relative_to resolved home_dir

/-! ### detect_multiline_paste (src/lib/paste_detector.py, lines 5-35)

format_size does Python float division and "%.1f" formatting; binary float
arithmetic is not modelled, so the size string is an oracle parameter. -/

/-- The stats dictionary built by detect_multiline_paste. -/
structure PasteStats where
  lines : Nat
  chars : Nat
  size : String
  deriving Repr, DecidableEq

/-- detect_multiline_paste: empty text is not a paste (and yields an empty
stats dict, modelled as none); otherwise a paste iff 3 or more lines or 200
or more characters. line_count is the newline count plus one. -/
def detect_multiline_paste (formatSize : Nat → String) (text : String) :
    Bool × Option PasteStats :=
  if text = "" then (false, none)
  else
    let line_count := text.data.count '\n' + 1
    let char_count := text.length
    let is_paste := decide (3 ≤ line_count) || decide (200 ≤ char_count)
    (is_paste, some ⟨line_count, char_count, formatSize char_count⟩)

/-! ### A model of the Python values flowing through response handling

The response handler receives loosely structured data: None, booleans,
ints, strings, lists and dicts. Dicts are insertion-ordered association
lists (CPython guarantees the order). -/

inductive PyVal where
  | pynone : PyVal
  | pybool : Bool → PyVal
  | pyint : Int → PyVal
  | pystr : String → PyVal
  | pylist : List PyVal → PyVal
  | pydict : List (String × PyVal) → PyVal

/-- Python exceptions that the embedded fragments can raise. -/
inductive PyErr where
  | typeError : PyErr
  | keyError : PyErr
  | attributeError : PyErr
  deriving Repr, DecidableEq

/-- Python truthiness for the modelled values. -/
def pyTruthy : PyVal → Bool
  | .pynone => false
  | .pybool b => b
  | .pyint n => n != 0
  | .pystr s => !(s = "")
  | .pylist xs => !xs.isEmpty
  | .pydict fs => !fs.isEmpty

/-- v == "lit" for a Python string literal: only equal strings compare
equal; values of other types compare unequal. -/
def pyEqStr (v : PyVal) (s : String) : Bool :=
  match v with
  | .pystr t => t == s
  | _ => false

/-- First-match lookup in a dict's association list (dict keys are unique,
so first match is the match). -/
def lookupKey {α : Type} : List (String × α) → String → Option α
  | [], _ => none
  | (k, v) :: fs, s => if k = s then some v else lookupKey fs s

/-- startsWithChars hay needle: needle is a leading segment of hay. -/
def startsWithChars : List Char → List Char → Bool
  | _, [] => true
  | [], _ :: _ => false
  | h :: hs, p :: ps => h == p && startsWithChars hs ps

/-- Python substring containment (needle in hay) on character lists. -/
def containsChars : List Char → List Char → Bool
  | [], needle => needle.isEmpty
  | h :: hs, needle => startsWithChars (h :: hs) needle || containsChars hs needle

/-- Python "s in v" for a string s: key membership for dicts, element
membership for lists, substring for strings, TypeError otherwise. -/
def pyContainsStr (v : PyVal) (s : String) : Except PyErr Bool :=
  match v with
  | .pydict fs => .ok (fs.any (fun kv => kv.1 == s))
  | .pylist xs => .ok (xs.any (fun x => pyEqStr x s))
  | .pystr t => .ok (containsChars t.data s.data)
  | _ => .error .typeError

/-- Python v[s] subscription with a string key: dict lookup (KeyError when
missing), TypeError on every other type. -/
def pySubscriptStr (v : PyVal) (s : String) : Except PyErr PyVal :=
  match v with
  | .pydict fs =>
    match lookupKey fs s with
    | some x => .ok x
    | none => .error .keyError
  | _ => .error .typeError

/-- Python repr of a string: quote with ' (or " when the text holds a '
and no "), escaping backslash, the quote and common control characters. -/
def pyReprStringEscape (q : Char) (c : Char) : String :=
  if c = '\\' then "\\\\"
  else if c = q then String.mk ['\\', q]
  else if c = '\n' then "\\n"
  else if c = '\t' then "\\t"
  else if c = '\x0d' then "\\r"
  else String.mk [c]

/-- Python repr of a string (quote selection plus escaping). -/
def pyReprString (s : String) : String :=
  let q := if s.data.contains '\'' && !(s.data.contains '"') then '"' else '\''
  String.mk [q] ++ String.join (s.data.map (pyReprStringEscape q)) ++ String.mk [q]

mutual

/-- Python repr of a modelled value. -/
def pyRepr : PyVal → String
  | .pynone => "None"
  | .pybool b => if b then "True" else "False"
  | .pyint n => toString n
  | .pystr s => pyReprString s
  | .pylist xs => "[" ++ String.intercalate ", " (pyReprList xs) ++ "]"
  | .pydict fs => "\x7b" ++ String.intercalate ", " (pyReprFields fs) ++ "\x7d"

/-- reprs of the elements of a list. -/
def pyReprList : List PyVal → List String
  | [] => []
  | x :: xs => pyRepr x :: pyReprList xs

/-- reprs of the key: value pairs of a dict. -/
def pyReprFields : List (String × PyVal) → List String
  | [] => []
  | (k, v) :: fs => (pyReprString k ++ ": " ++ pyRepr v) :: pyReprFields fs

end

/-- Python str() of a modelled value: identity on strings, repr-like text
on containers, None/True/False/decimal on the atoms. -/
def pyToStr : PyVal → String
  | .pystr s => s
  | .pynone => "None"
  | .pybool b => if b then "True" else "False"
  | .pyint n => toString n
  | .pylist xs => pyRepr (.pylist xs)
  | .pydict fs => pyRepr (.pydict fs)

/-- The text of Python's type(v) for the modelled values, as interpolated
into the "Unknown text format" error message. -/
def pyTypeName : PyVal → String
  | .pynone => "<class 'NoneType'>"
  | .pybool _ => "<class 'bool'>"
  | .pyint _ => "<class 'int'>"
  | .pystr _ => "<class 'str'>"
  | .pylist _ => "<class 'list'>"
  | .pydict _ => "<class 'dict'>"

/-! ### extract_answer_from_response (src/core/response_handler.py, lines 4-47)

json.loads is the json library's parser, not code of this repository; it
is an oracle `String → Option PyVal` (none models JSONDecodeError). Inside
the source's outer try block every operation is guarded (isinstance checks
before attribute access, membership checks before subscription, and the
json.loads / .get pair sits in an inner bare-except returning the raw
string), so in this value model the try body is total and the outer
"Error parsing steps" handler has no reachable trigger. -/

/-- The generator predicate: isinstance(step, dict) and
step.get('step_type') == 'FINAL'. -/
def finalStepB (step : PyVal) : Bool :=
  match step with
  | .pydict fs => pyEqStr ((lookupKey fs "step_type").getD .pynone) "FINAL"
  | _ => false

/-- Lines 17-29 of response_handler.py: the content of a FINAL step. -/
def handleFinalContent (jsonLoads : String → Option PyVal) (content : PyVal) : PyVal :=
  match content with
  | .pydict cfs =>
    (match lookupKey cfs "answer" with
     | some answer_content =>
       (match answer_content with
        | .pystr s =>
          (match jsonLoads s with
           | some answer_json =>
             (match answer_json with
              | .pydict ajfs => (lookupKey ajfs "answer").getD (.pystr (pyToStr answer_json))
              | _ => .pystr s)
           | none => .pystr s)
        | .pydict afs => (lookupKey afs "answer").getD (.pystr (pyToStr answer_content))
        | other => .pystr (pyToStr other))
     | none => .pystr (pyToStr content))
  | _ => .pystr (pyToStr content)

/-- Lines 32-38 of response_handler.py: the fallback when no usable FINAL
step exists — last step's content if the list is nonempty, else the
distinct empty-steps error. -/
def lastStepFallback (steps : List PyVal) : PyVal :=
  match steps.getLast? with
  | some last =>
    (match last with
     | .pydict lfs =>
       (match lookupKey lfs "content" with
        | some c => .pystr (pyToStr c)
        | none => .pystr (pyToStr last))
     | _ => .pystr (pyToStr last))
  | none => .pystr "Error: Empty steps list"

/-- The try block over a step list (lines 12-38): find the FINAL step; if
it exists and has content, extract from it, else fall back. -/
def extractFromSteps (jsonLoads : String → Option PyVal) (steps : List PyVal) : PyVal :=
  match List.find? finalStepB steps with
  | some (.pydict ffs) =>
    (match lookupKey ffs "content" with
     | some content => handleFinalContent jsonLoads content
     | none => lastStepFallback steps)
  | some _ => lastStepFallback steps
  | none => lastStepFallback steps

/-- extract_answer_from_response. The result is a PyVal because the source
can return the raw answer field, which need not be a string; exceptions
escaping the function are Except.error. -/
def extract_answer_from_response (jsonLoads : String → Option PyVal)
    (resp : PyVal) : Except PyErr PyVal :=
  if !(pyTruthy resp) then .ok (.pystr "Error: No response from API")
  else
    match pyContainsStr resp "text" with
    | .error e => .error e
    | .ok b =>
      if !b then .ok (.pystr "Error: No response from API")
      else
        match pySubscriptStr resp "text" with
        | .error e => .error e
        | .ok text_content =>
          match text_content with
          | .pylist steps => .ok (extractFromSteps jsonLoads steps)
          | .pystr s => .ok (.pystr s)
          | .pydict fs => .ok (.pystr (pyToStr (.pydict fs)))
          | v => .ok (.pystr ("Error: Unknown text format: " ++ pyTypeName v))

/-! ### Dict primitives for the context stores

CPython dicts keep insertion order; assigning to an existing key replaces
the value in place, deleting a key keeps the order of the survivors. -/

/-- Dict assignment d[k] = v on an association list. -/
def upsertKey {α : Type} : List (String × α) → String → α → List (String × α)
  | [], k, v => [(k, v)]
  | (k', v') :: rest, k, v =>
    if k' = k then (k, v) :: rest else (k', v') :: upsertKey rest k v

/-- Dict deletion del d[k] on an association list (first occurrence). -/
def eraseKey {α : Type} : List (String × α) → String → List (String × α)
  | [], _ => []
  | (k', v') :: rest, k => if k' = k then rest else (k', v') :: eraseKey rest k

/-! ### fnmatch.fnmatch (Python standard library, used by
FileSystemManager.remove_from_context)

Shell-glob matching: * matches any run, ? one character, [seq] a set with
optional ! negation and a-b ranges, an unterminated [ is literal. On POSIX
fnmatch.fnmatch does no case folding. The matcher takes explicit fuel
(pattern length + name length + 1 suffices: every step shortens the
pattern, the name, or both) so that it is structurally recursive. -/

/-- Scan for the closing bracket of a [seq]; returns the set body and the
remainder of the pattern, or none when the set is unterminated. -/
def findCloseBracket : List Char → Option (List Char × List Char)
  | [] => none
  | ']' :: rest => some ([], rest)
  | c :: rest =>
    match findCloseBracket rest with
    | some (body, after) => some (c :: body, after)
    | none => none

/-- Split off a [seq] body the way fnmatch.translate scans it: a leading !
and then a leading ] are consumed before looking for the closing ]. -/
def splitBracketSet (cs : List Char) : Option (List Char × List Char) :=
  match cs with
  | '!' :: ']' :: rest =>
    (match findCloseBracket rest with
     | some (body, after) => some ('!' :: ']' :: body, after)
     | none => none)
  | '!' :: rest =>
    (match findCloseBracket rest with
     | some (body, after) => some ('!' :: body, after)
     | none => none)
  | ']' :: rest =>
    (match findCloseBracket rest with
     | some (body, after) => some (']' :: body, after)
     | none => none)
  | _ => findCloseBracket cs

/-- Membership of a character in a bracket-set body: a-b ranges between
code points, other characters literally. -/
def matchSetBody : List Char → Char → Bool
  | [], _ => false
  | a :: '-' :: b :: rest, c =>
    (decide (a.toNat ≤ c.toNat) && decide (c.toNat ≤ b.toNat)) || matchSetBody rest c
  | a :: rest, c => a == c || matchSetBody rest c

/-- The glob matcher, pattern against name, with explicit fuel. -/
def fnmatchFuel : Nat → List Char → List Char → Bool
  | 0, _, _ => false
  | fuel + 1, pattern, name =>
    match pattern with
    | [] => name.isEmpty
    | '*' :: ps =>
      fnmatchFuel fuel ps name ||
        (match name with
         | [] => false
         | _ :: name' => fnmatchFuel fuel pattern name')
    | '?' :: ps =>
      (match name with
       | [] => false
       | _ :: name' => fnmatchFuel fuel ps name')
    | '[' :: ps =>
      (match splitBracketSet ps with
       | none =>
         (match name with
          | [] => false
          | c :: name' => c == '[' && fnmatchFuel fuel ps name')
       | some (body, rest) =>
         (match name with
          | [] => false
          | c :: name' =>
            (match body with
             | '!' :: negBody => !(matchSetBody negBody c)
             | _ => matchSetBody body c) && fnmatchFuel fuel rest name'))
    | p :: ps =>
      (match name with
       | [] => false
       | c :: name' => p == c && fnmatchFuel fuel ps name')

/-- fnmatch.fnmatch(name, pattern) (POSIX, no case folding). -/
def fnmatch (name pattern : String) : Bool :=
  fnmatchFuel (pattern.data.length + name.data.length + 1) pattern.data name.data

/-! ### FileSystemManager.remove_from_context
(src/core/filesystem_manager.py, lines 212-227)

The file store self.context_files is a dict keyed by the canonical
absolute path string; the value type is abstract here. The method prints
the removed count; the embedding returns it together with the new store. -/

/-- remove_from_context: pattern '*' clears the store reporting the prior
count; otherwise collect the fnmatch-ing keys and delete them one by one,
counting each deletion. -/
def remove_from_context {α : Type} (context_files : List (String × α))
    (pattern : String) : List (String × α) × Nat :=
  if pattern = "*" then ([], context_files.length)
  else
    let to_remove := (context_files.filter (fun kv => fnmatch kv.1 pattern)).map Prod.fst
    (to_remove.foldl (fun s k => eraseKey s k) context_files, to_remove.length)

/-! ### The paste store (src/core/filesystem_manager.py, lines 229-279)

datetime.now() is wall-clock input; timestamps are Nats (seconds) passed
in by the caller of add. -/

/-- One value of self.paste_contexts: content, timestamp, line count and
byte size as computed at add time. -/
structure PasteEntry where
  content : String
  timestamp : Nat
  lines : Nat
  size : Nat
  deriving Repr, DecidableEq

/-- The paste-related fields of FileSystemManager. -/
structure PasteStoreState where
  paste_counter : Nat
  paste_contexts : List (String × PasteEntry)
  deriving Repr, DecidableEq

/-- The state after __init__: counter 0, no pastes. -/
def initPasteState : PasteStoreState := ⟨0, []⟩

/-- Python's f"paste_\x7bn:03d\x7d": the decimal of n left-padded with
zeros to at least three digits, after the fixed prefix. -/
def formatPasteId (n : Nat) : String :=
  String.mk ("paste_".data ++
    List.replicate (3 - (natToString n).data.length) '0' ++ (natToString n).data)

/-- The counter value encoded in a paste ID: the decimal value of the
characters after the six-character fixed prefix. -/
def pasteIdVal (s : String) : Nat := msdVal (s.data.drop 6)

/-- add_paste_to_context (lines 229-251): bump the counter, format the ID,
store content with timestamp and line/size stats, return the ID. -/
def add_paste_to_context (st : PasteStoreState) (text : String) (now : Nat) :
    PasteStoreState × String :=
  let c := st.paste_counter + 1
  let paste_id := formatPasteId c
  (⟨c, upsertKey st.paste_contexts paste_id
      ⟨text, now, text.data.count '\n' + 1, text.length⟩⟩, paste_id)

/-- remove_paste_from_context (lines 254-267): delete by exact ID, report
whether it existed; the counter is untouched. -/
def remove_paste_from_context (st : PasteStoreState) (paste_id : String) :
    PasteStoreState × Bool :=
  match lookupKey st.paste_contexts paste_id with
  | some _ => (⟨st.paste_counter, eraseKey st.paste_contexts paste_id⟩, true)
  | none => (st, false)

/-- A session's worth of paste operations: adds (with the wall-clock time
of the add) and removes, interleaved arbitrarily. -/
inductive PasteOp where
  | add : String → Nat → PasteOp
  | remove : String → PasteOp

/-- Number of adds in an operation sequence. -/
def countPasteAdds : List PasteOp → Nat
  | [] => 0
  | .add _ _ :: ops => countPasteAdds ops + 1
  | .remove _ :: ops => countPasteAdds ops

/-- Run a sequence of paste operations, collecting the IDs the adds hand
out, in order. -/
def runPasteOps (st : PasteStoreState) : List PasteOp → PasteStoreState × List String
  | [] => (st, [])
  | .add t now :: ops =>
    let r := add_paste_to_context st t now
    let rest := runPasteOps r.1 ops
    (rest.1, r.2 :: rest.2)
  | .remove pid :: ops => runPasteOps (remove_paste_from_context st pid).1 ops

/-! ### FileSystemManager.add_to_context
(src/core/filesystem_manager.py, lines 178-209)

Paths are an abstract type P; the filesystem checks the loop performs on
each candidate are oracles. The glob / directory expansion of lines
180-187 only produces the candidate list, so the embedding takes the
matches list directly. __init__ (line 20) builds self.file_validator as
FileValidator(self.home_dir), and the loop calls
self.file_validator._is_binary(match); the FileValidator class in
src/utils/validators.py defines is_binary, is_too_large and
validate_file_for_context but no _is_binary, so that attribute lookup
raises AttributeError. The class's method table is recorded here and the
call is modelled as the lookup the interpreter performs. -/

/-- The methods the FileValidator class defines (src/utils/validators.py,
lines 53-85). -/
def fileValidatorMethods : List String := ["is_binary", "is_too_large", "validate_file_for_context"]

/-- The call self.file_validator._is_binary(match): resolve the attribute
in the class's method table; a missing attribute is an AttributeError. -/
def callUnderscoreIsBinary {P : Type} (isBinaryCheck : P → Bool) (p : P) :
    Except PyErr Bool :=
  if "_is_binary" ∈ fileValidatorMethods then .ok (isBinaryCheck p)
  else .error .attributeError

/-- The oracles add_to_context consults per candidate. -/
structure AddOracle (P : Type) where
  isFile : P → Bool
  isPathAllowedO : P → Bool
  statSize : P → Nat
  isBinaryCheck : P → Bool
  resolveStr : P → String

/-- The candidate loop of add_to_context (lines 189-203). On an uncaught
exception the loop stops; the store mutated so far and the count are kept
alongside the error. -/
def addToContextLoop {P : Type} (o : AddOracle P) :
    List (String × P) → Nat → List P → Option PyErr × List (String × P) × Nat
  | store, added, [] => (none, store, added)
  | store, added, m :: ms =>
    if o.isFile m && o.isPathAllowedO m then
      if o.statSize m > 500000 then addToContextLoop o store added ms
      else
        match callUnderscoreIsBinary o.isBinaryCheck m with
        | .error e => (some e, store, added)
        | .ok true => addToContextLoop o store added ms
        | .ok false =>
          addToContextLoop o (upsertKey store (o.resolveStr m) m) (added + 1) ms
    else addToContextLoop o store added ms

/-- add_to_context: run the loop over the expanded matches against the
current store. -/
def add_to_context {P : Type} (o : AddOracle P) (context_files : List (String × P))
    (matchList : List P) : Option PyErr × List (String × P) × Nat :=
  addToContextLoop o context_files 0 matchList

/-! ### FileSystemManager.cd (src/core/filesystem_manager.py, lines 29-60)

Paths are an abstract type P; Path operations and the filesystem tests are
oracles. path is Option String: None selects home. -/

/-- The path operations and filesystem tests cd performs. -/
structure NavOracle (P : Type) where
  parent : P → P
  joinRel : P → String → P
  ofAbsolute : String → P
  isAbsolute : String → Bool
  resolveP : P → P
  isAllowed : P → Bool
  pathExists : P → Bool
  isDir : P → Bool

/-- The navigation fields of FileSystemManager. -/
structure NavState (P : Type) where
  current_dir : P
  prev_dir : P
  deriving Repr, DecidableEq

/-- cd: select the target (home / parent / previous / absolute / relative),
resolve it, run the three checks, and only on success set prev_dir to the
old current_dir and current_dir to the target. -/
def cd {P : Type} (o : NavOracle P) (home_dir : P) (st : NavState P)
    (path : Option String) : Bool × NavState P :=
  let target :=
    match path with
    | none => home_dir
    | some s =>
      if s = ".." then o.parent st.current_dir
      else if s = "-" then st.prev_dir
      else if o.isAbsolute s then o.ofAbsolute s
      else o.joinRel st.current_dir s
  let target := o.resolveP target
  if !(o.isAllowed target) then (false, st)
  else if !(o.pathExists target) then (false, st)
  else if !(o.isDir target) then (false, st)
  else (true, ⟨target, st.current_dir⟩)

/-! ### FileSystemManager._format_time_ago and list_context
(src/core/filesystem_manager.py, lines 282-345)

_format_size does float division and %.1f formatting, so it is an oracle.
list_context is modelled as the list of lines printed to the console, in
order, markup included. datetime.now() is the now parameter. -/

/-- _format_time_ago (lines 282-305) for a stored timestamp ts and the
current time now, both in seconds, ts not after now: bucket the difference
at minute, hour and day boundaries with truncating division. -/
def format_time_ago (now ts : Nat) : String :=
  let seconds := now - ts
  if seconds < 60 then natToString seconds ++ "s ago"
  else if seconds < 3600 then natToString (seconds / 60) ++ "m ago"
  else if seconds < 86400 then natToString (seconds / 3600) ++ "h ago"
  else natToString (seconds / 86400) ++ "d ago"

/-- Python string < : lexicographic comparison by code point. -/
def charListLt : List Char → List Char → Bool
  | [], [] => false
  | [], _ :: _ => true
  | _ :: _, [] => false
  | a :: as, b :: bs =>
    if a.toNat < b.toNat then true
    else if a = b then charListLt as bs else false

/-- Insert one paste item into a key-sorted list, after equal keys, as
Python's stable sorted() places it. -/
def insertByKey (x : String × PasteEntry) :
    List (String × PasteEntry) → List (String × PasteEntry)
  | [] => [x]
  | y :: ys => if charListLt x.1.data y.1.data then x :: y :: ys else y :: insertByKey x ys

/-- sorted(self.paste_contexts.items()): sort by key (keys are unique, so
the tuple comparison never reaches the values). -/
def sortByKey : List (String × PasteEntry) → List (String × PasteEntry)
  | [] => []
  | x :: xs => insertByKey x (sortByKey xs)

/-- One line of the Files section (lines 327-336): display path relative
to home when that succeeds, else the absolute-path key. -/
def fileContextLine {P : Type} (formatSize : Nat → String) (statSize : P → Nat)
    (relToHome : P → Option String) (kv : String × P) : String :=
  let size := formatSize (statSize kv.2)
  let display_path :=
    match relToHome kv.2 with
    | some rel => "~/" ++ rel
    | none => kv.1
  "  [white]• " ++ display_path ++ "[/white] [dim](" ++ size ++ ")[/dim]"

/-- One line of the Pasted Content section (lines 341-345). -/
def pasteContextLine (formatSize : Nat → String) (now : Nat)
    (kv : String × PasteEntry) : String :=
  "  [yellow]• " ++ kv.1 ++ "[/yellow] [dim](" ++ natToString kv.2.lines ++
    " lines, " ++ formatSize kv.2.size ++ ") - " ++ format_time_ago now kv.2.timestamp ++ "[/dim]"

/-- list_context (lines 308-345): the empty notice, or the header followed
by the Files section when files exist; the paste section sits inside the
has_files branch, exactly as in the source. -/
def list_context {P : Type} (formatSize : Nat → String) (statSize : P → Nat)
    (relToHome : P → Option String) (now : Nat)
    (context_files : List (String × P)) (paste_contexts : List (String × PasteEntry)) :
    List String :=
  let has_files := context_files.length > 0
  let has_pastes := paste_contexts.length > 0
  if !has_files && !has_pastes then ["[dim]No files or pastes in context[/dim]"]
  else
    let total_size := (context_files.map (fun kv => statSize kv.2)).sum +
      (paste_contexts.map (fun kv => kv.2.size)).sum
    let total_items := context_files.length + paste_contexts.length
    let header := "[bold cyan]📋 Context (" ++ natToString total_items ++
      " items, " ++ formatSize total_size ++ ")[/bold cyan]"
    header ::
      (if has_files then
        "\n[bold]Files:[/bold]" ::
          context_files.map (fileContextLine formatSize statSize relToHome) ++
          (if has_pastes then
            "\n[bold]Pasted Content:[/bold]" ::
              (sortByKey paste_contexts).map (pasteContextLine formatSize now)
          else [])
      else [])

/-! ### handle_ai_query, composition of the outbound request
(src/handlers/ai_query.py, lines 46-86)

Files are read freshly at composition time (oracle readFile, none for a
read failure, which the source catches and skips); their contents go into
the files_for_upload dict sent as the API files parameter (added to
api_params only when nonempty). Pastes are embedded into the query string;
with no pastes the query is sent unmodified. -/

/-- The parts of the outbound request the context determines. -/
structure ComposedRequest where
  final_query : String
  files : Option (List (String × String))
  deriving Repr, DecidableEq

/-- One element of paste_parts (line 62). -/
def pastePart (kv : String × PasteEntry) : String :=
  "--- Context: " ++ kv.1 ++ " ---\n" ++ kv.2.content ++ "\n"

/-- Lines 46-83 of handle_ai_query: build files_for_upload by fresh reads
(dict assignment per success), embed pastes into the query when present,
and attach the files parameter only when nonempty. -/
def compose_outbound_request {P : Type} (readFile : P → Option String)
    (context_files : List (String × P)) (paste_contexts : List (String × PasteEntry))
    (query : String) : ComposedRequest :=
  let files_for_upload := context_files.foldl
    (fun acc kv =>
      match readFile kv.2 with
      | some content => upsertKey acc kv.1 content
      | none => acc) []
  let paste_count := paste_contexts.length
  let final_query :=
    if paste_count > 0 then
      let paste_parts := paste_contexts.map pastePart
      let paste_context := String.intercalate "\n" paste_parts
      paste_context ++ "\n--- User Question ---\n" ++ query
    else query
  ⟨final_query, if files_for_upload.length > 0 then some files_for_upload else none⟩

/-! ## Theorems -/

/-- On canonical component lists, Python's is_relative_to test holds
exactly when the base is a leading segment, i.e. the path is the base or a
descendant of it. -/
theorem path_is_relative_to_iff (home : List String) :
    ∀ r : List String, path_is_relative_to r home = true ↔ ∃ t, r = home ++ t := by
  induction home with
  | nil =>
    intro r
    cases r with
    | nil => exact ⟨fun _ => ⟨[], rfl⟩, fun _ => rfl⟩
    | cons x xs => exact ⟨fun _ => ⟨x :: xs, rfl⟩, fun _ => rfl⟩
  | cons b bs ih =>
    intro r
    cases r with
    | nil =>
      constructor
      · intro h; exact absurd h (by simp [path_is_relative_to])
      · rintro ⟨t, ht⟩; cases ht
    | cons x xs =>
      constructor
      · intro h
        have h' : (x == b) = true ∧ path_is_relative_to xs bs = true := by
          simpa [path_is_relative_to, Bool.and_eq_true] using h
        obtain ⟨t, ht⟩ := (ih xs).mp h'.2
        have hxb : x = b := by simpa using h'.1
        exact ⟨t, by rw [List.cons_append, ht, hxb]⟩
      · rintro ⟨t, ht⟩
        rw [List.cons_append] at ht
        injection ht with h1 h2
        show ((x == b) && path_is_relative_to xs bs) = true
        rw [h1, h2]
        simp [(ih (bs ++ t)).mpr ⟨t, rfl⟩]

/-- C1: is_path_allowed p is true iff the canonical resolution of p
succeeds and the resolved path equals home_dir or is a descendant of it;
in particular a failed resolution (exception) makes it false, never
true. -/
theorem claim_C1_is_path_allowed_iff {P : Type} (resolvePath : P → Option (List String))
    (home_dir : List String) (p : P) :
    is_path_allowed resolvePath home_dir p = true ↔
      ∃ r, resolvePath p = some r ∧ ∃ t, r = home_dir ++ t := by
  unfold is_path_allowed
  cases hr : resolvePath p with
  | none => simp
  | some r => simp [path_is_relative_to_iff]

/-- C5: the empty text never classifies as a paste, and nonempty text
classifies as a paste exactly when it has at least 3 lines (newline count
plus one) or at least 200 characters. -/
theorem claim_C5_detect_multiline_paste (formatSize : Nat → String) (text : String)
    (h : text ≠ "") :
    (detect_multiline_paste formatSize "").1 = false ∧
    ((detect_multiline_paste formatSize text).1 = true ↔
      3 ≤ text.data.count '\n' + 1 ∨ 200 ≤ text.length) := by
  refine ⟨rfl, ?_⟩
  unfold detect_multiline_paste
  rw [if_neg h]
  simp

/-- Concrete check of claim C5 at the spec's example "a\nb\nc": three
lines, classified as a paste. -/
theorem claim_C5_witness :
    ("a\nb\nc" ≠ "") ∧ (detect_multiline_paste (fun _ => "") "a\nb\nc").1 = true := by
  refine ⟨by decide, ?_⟩
  exact (claim_C5_detect_multiline_paste (fun _ => "") "a\nb\nc" (by decide)).2.mpr
    (Or.inl (by decide))

/-- Every digit produced by natDigitsAux is below 10. -/
theorem natDigitsAux_lt_ten : ∀ fuel n d, d ∈ natDigitsAux fuel n → d < 10 := by
  intro fuel
  induction fuel with
  | zero => intro n d hd; simp [natDigitsAux] at hd
  | succ f ih =>
    intro n d hd
    unfold natDigitsAux at hd
    by_cases h : n = 0
    · simp [h] at hd
    · rw [if_neg h] at hd
      rcases List.mem_cons.mp hd with h1 | h2
      · rw [h1]; exact Nat.mod_lt _ (by omega)
      · exact ih _ _ h2

/-- With enough fuel, the digit list evaluates back to the number. -/
theorem digitsVal_natDigitsAux : ∀ fuel n, n ≤ fuel →
    digitsVal (natDigitsAux fuel n) = n := by
  intro fuel
  induction fuel with
  | zero => intro n h; have h0 : n = 0 := (by omega); subst h0; rfl
  | succ f ih =>
    intro n h
    unfold natDigitsAux
    by_cases h0 : n = 0
    · simp [h0, digitsVal]
    · rw [if_neg h0]
      have hdiv : n / 10 ≤ f := by
        have := Nat.div_lt_self (Nat.pos_of_ne_zero h0) (by omega : 1 < 10)
        omega
      show n % 10 + 10 * digitsVal (natDigitsAux f (n / 10)) = n
      rw [ih _ hdiv]
      omega

/-- Decoding a rendered digit recovers its value. -/
theorem charDigit_digitChar : ∀ d, d < 10 → charDigit (digitChar d) = d := by decide

/-- msdVal over a final character. -/
theorem msdVal_append_singleton (cs : List Char) (c : Char) :
    msdVal (cs ++ [c]) = 10 * msdVal cs + charDigit c := by
  unfold msdVal
  rw [List.foldl_append]
  rfl

/-- Rendering least-significant-first digits most-significant-first and
evaluating gives back the digit list's value. -/
theorem msdVal_reverse_digits : ∀ ds : List Nat, (∀ d ∈ ds, d < 10) →
    msdVal (ds.reverse.map digitChar) = digitsVal ds := by
  intro ds
  induction ds with
  | nil => intro _; rfl
  | cons d ds ih =>
    intro h
    rw [List.reverse_cons, List.map_append]
    show msdVal (ds.reverse.map digitChar ++ [digitChar d]) = digitsVal (d :: ds)
    rw [msdVal_append_singleton, ih (fun x hx => h x (List.mem_cons_of_mem _ hx)),
      charDigit_digitChar d (h d (List.mem_cons_self d ds))]
    show 10 * digitsVal ds + d = d + 10 * digitsVal ds
    omega

/-- Leading zeros do not change the decoded value. -/
theorem msdVal_zero_pad : ∀ k (cs : List Char),
    msdVal (List.replicate k '0' ++ cs) = msdVal cs := by
  intro k
  induction k with
  | zero => intro cs; rfl
  | succ n ih =>
    intro cs
    rw [List.replicate_succ, List.cons_append]
    show List.foldl (fun a c => 10 * a + charDigit c) (10 * 0 + charDigit '0')
      (List.replicate n '0' ++ cs) = msdVal cs
    have h0 : 10 * 0 + charDigit '0' = 0 := rfl
    rw [h0]
    exact ih cs

/-- Decoding the decimal rendering of n recovers n. -/
theorem msdVal_natToString (n : Nat) : msdVal (natToString n).data = n := by
  unfold natToString
  by_cases h : n = 0
  · simp [h]; rfl
  · rw [if_neg h]
    show msdVal ((natDigitsLE n).reverse.map digitChar) = n
    rw [msdVal_reverse_digits (natDigitsLE n) (fun d hd => natDigitsAux_lt_ten n n d hd)]
    exact digitsVal_natDigitsAux n n le_rfl

/-- The counter value is recoverable from a generated paste ID: dropping
the fixed prefix and reading the zero-padded decimal gives n back. -/
theorem pasteIdVal_formatPasteId (n : Nat) : pasteIdVal (formatPasteId n) = n := by
  unfold pasteIdVal formatPasteId
  show msdVal (List.drop 6 ("paste_".data ++
    (List.replicate (3 - (natToString n).data.length) '0' ++ (natToString n).data))) = n
  have hdrop : List.drop 6 ("paste_".data ++
      (List.replicate (3 - (natToString n).data.length) '0' ++ (natToString n).data))
      = List.replicate (3 - (natToString n).data.length) '0' ++ (natToString n).data := rfl
  rw [hdrop, msdVal_zero_pad]
  exact msdVal_natToString n

/-- Removing a paste never touches the counter. -/
theorem remove_paste_counter (st : PasteStoreState) (pid : String) :
    ((remove_paste_from_context st pid).1).paste_counter = st.paste_counter := by
  unfold remove_paste_from_context
  cases lookupKey st.paste_contexts pid <;> rfl

/-- The IDs issued along any operation sequence are the formatted
counters counter+1, counter+2, ... , one per add. -/
theorem runPasteOps_ids : ∀ (ops : List PasteOp) (st : PasteStoreState),
    (runPasteOps st ops).2
      = (List.range' (st.paste_counter + 1) (countPasteAdds ops)).map formatPasteId := by
  intro ops
  induction ops with
  | nil => intro st; rfl
  | cons op ops ih =>
    intro st
    cases op with
    | add t now =>
      show formatPasteId (st.paste_counter + 1) ::
        (runPasteOps (add_paste_to_context st t now).1 ops).2 = _
      rw [ih]
      show formatPasteId (st.paste_counter + 1) ::
          (List.range' (st.paste_counter + 1 + 1) (countPasteAdds ops)).map formatPasteId
        = (List.range' (st.paste_counter + 1) (countPasteAdds ops + 1)).map formatPasteId
      rw [List.range'_succ]
      rfl
    | remove pid =>
      show (runPasteOps (remove_paste_from_context st pid).1 ops).2 = _
      rw [ih, remove_paste_counter]
      rfl

/-- C4: from the initial state, any interleaving of paste adds and removes
issues the IDs paste_001, paste_002, ... in order of the strictly
increasing counter: the issued list is the formatted range, its encoded
counter values strictly increase, no ID is ever issued twice, and in
particular add, remove paste_001, add issues paste_001 then paste_002. -/
theorem claim_C4_paste_ids (ops : List PasteOp) :
    (runPasteOps initPasteState ops).2
      = (List.range' 1 (countPasteAdds ops)).map formatPasteId ∧
    List.Pairwise (fun a b => pasteIdVal a < pasteIdVal b) (runPasteOps initPasteState ops).2 ∧
    (runPasteOps initPasteState ops).2.Nodup ∧
    (runPasteOps initPasteState
      [PasteOp.add "x" 0, PasteOp.remove "paste_001", PasteOp.add "y" 5]).2
      = ["paste_001", "paste_002"] := by
  have hids := runPasteOps_ids ops initPasteState
  have hpw : List.Pairwise (fun a b => pasteIdVal a < pasteIdVal b)
      (runPasteOps initPasteState ops).2 := by
    rw [hids, List.pairwise_map]
    exact (List.pairwise_lt_range' 1 (countPasteAdds ops)).imp
      (fun {a b} h => by rw [pasteIdVal_formatPasteId, pasteIdVal_formatPasteId]; exact h)
  refine ⟨hids, hpw, ?_, by decide⟩
  exact hpw.imp (fun {a b} h heq => by rw [heq] at h; exact lt_irrefl _ h)

/-- C10: cd is atomic on failure — whenever any of the three checks
(boundary, existence, directory) rejects the target, it returns false with
current_dir and prev_dir exactly as they were; and prev_dir becomes the
old current_dir only on a successful change. -/
theorem claim_C10_cd_atomic {P : Type} (o : NavOracle P) (home_dir : P)
    (st : NavState P) (path : Option String) :
    ((cd o home_dir st path).1 = false → (cd o home_dir st path).2 = st) ∧
    ((cd o home_dir st path).1 = true →
      ((cd o home_dir st path).2).prev_dir = st.current_dir) := by
  unfold cd
  dsimp only
  repeat' split
  all_goals
    first
      | exact And.intro (fun _ => rfl) (fun h => nomatch h)
      | exact And.intro (fun h => nomatch h) (fun _ => rfl)

/-- Concrete check of claim C10: a cd rejected by the boundary check
leaves the navigation state untouched. -/
theorem claim_C10_witness :
    (cd (⟨fun _ => 0, fun _ _ => 0, fun _ => 0, fun _ => false, fun p => p,
        fun _ => false, fun _ => false, fun _ => false⟩ : NavOracle Nat)
      0 ⟨1, 2⟩ (some "sub")).2 = ⟨1, 2⟩ :=
  (claim_C10_cd_atomic _ 0 ⟨1, 2⟩ (some "sub")).1 rfl

/-- C3 (code bug): a candidate that is a readable small file inside the
boundary makes add_to_context raise AttributeError at the
self.file_validator._is_binary call — FileValidator defines is_binary,
not _is_binary — so the upsert at lines 201-202 is never reached and
nothing is ever added. -/
theorem claim_C3_add_raises_attribute_error :
    add_to_context (P := String)
      ⟨fun _ => true, fun _ => true, fun _ => 10, fun _ => false, fun s => s⟩
      [] ["notes.txt"]
      = (some PyErr.attributeError, [], 0) := by decide

/-- Deleting a key different from the head key passes over the head. -/
theorem eraseKey_cons_ne {α : Type} (key : String) (v : α) (rest : List (String × α))
    (k : String) (h : k ≠ key) :
    eraseKey ((key, v) :: rest) k = (key, v) :: eraseKey rest k := by
  show (if key = k then rest else (key, v) :: eraseKey rest k) = _
  rw [if_neg (fun e => h e.symm)]

/-- A fold of deletions whose keys all differ from the head key leaves the
head in place. -/
theorem foldl_erase_cons_ne {α : Type} (key : String) (v : α) :
    ∀ (ks : List String) (rest : List (String × α)), (∀ k ∈ ks, k ≠ key) →
      List.foldl (fun s k => eraseKey s k) ((key, v) :: rest) ks
        = (key, v) :: List.foldl (fun s k => eraseKey s k) rest ks := by
  intro ks
  induction ks with
  | nil => intro rest _; rfl
  | cons k ks ih =>
    intro rest h
    rw [List.foldl_cons, List.foldl_cons,
      eraseKey_cons_ne key v rest k (h k (List.mem_cons_self k ks))]
    exact ih (eraseKey rest k) (fun x hx => h x (List.mem_cons_of_mem _ hx))

/-- Deleting, one by one, exactly the keys whose entries satisfy p leaves
exactly the entries that do not satisfy p, in their original order
(store keys assumed unique, as they are in a dict). -/
theorem foldl_erase_matched {α : Type} (p : String × α → Bool) :
    ∀ store : List (String × α), (store.map Prod.fst).Nodup →
      List.foldl (fun s k => eraseKey s k) store ((store.filter p).map Prod.fst)
        = store.filter (fun kv => !(p kv)) := by
  intro store
  induction store with
  | nil => intro _; rfl
  | cons kv rest ih =>
    obtain ⟨k0, v0⟩ := kv
    intro hnd
    have hk0 : k0 ∉ rest.map Prod.fst := (List.nodup_cons.mp hnd).1
    have hnd' : (rest.map Prod.fst).Nodup := (List.nodup_cons.mp hnd).2
    by_cases hp : p (k0, v0)
    · rw [List.filter_cons_of_pos hp, List.map_cons]
      show List.foldl (fun s k => eraseKey s k) (eraseKey ((k0, v0) :: rest) k0)
        ((rest.filter p).map Prod.fst) = _
      have he : eraseKey ((k0, v0) :: rest) k0 = rest := by
        unfold eraseKey; rw [if_pos rfl]
      rw [he, ih hnd', List.filter_cons_of_neg (by simp [hp])]
    · rw [List.filter_cons_of_neg (by simp [hp])]
      have hne : ∀ k ∈ (rest.filter p).map Prod.fst, k ≠ k0 := by
        intro k hk e
        subst e
        obtain ⟨kv', hmem, he⟩ := List.mem_map.mp hk
        exact hk0 (he ▸ List.mem_map_of_mem Prod.fst (List.mem_of_mem_filter hmem))
      rw [foldl_erase_cons_ne k0 v0 ((rest.filter p).map Prod.fst) rest hne]
      rw [ih hnd', List.filter_cons_of_pos (by simp [hp])]

/-- C6: with the store's keys unique (a dict invariant), the pattern '*'
clears every file entry reporting the prior count, and any other pattern
removes exactly the entries whose key fnmatch-es it, reporting their
number and leaving the others untouched in order. -/
theorem claim_C6_remove_from_context {α : Type} (context_files : List (String × α))
    (pattern : String) (hnd : (context_files.map Prod.fst).Nodup) :
    remove_from_context context_files "*" = ([], context_files.length) ∧
    (pattern ≠ "*" →
      remove_from_context context_files pattern
        = (context_files.filter (fun kv => !(fnmatch kv.1 pattern)),
           (context_files.filter (fun kv => fnmatch kv.1 pattern)).length)) := by
  constructor
  · rfl
  · intro hp
    unfold remove_from_context
    rw [if_neg hp]
    show (List.foldl (fun s k => eraseKey s k) context_files
        ((context_files.filter (fun kv => fnmatch kv.1 pattern)).map Prod.fst),
      ((context_files.filter (fun kv => fnmatch kv.1 pattern)).map Prod.fst).length) = _
    rw [foldl_erase_matched _ context_files hnd, List.length_map]

/-- Concrete check of claim C6: removing *.py from a two-entry store
removes the matching entry, keeps the other, and reports one removal. -/
theorem claim_C6_witness :
    ((([("/home/u/a.py", 1), ("/home/u/b.txt", 2)] : List (String × Nat)).map
      Prod.fst).Nodup) ∧
    remove_from_context [("/home/u/a.py", 1), ("/home/u/b.txt", 2)] "*.py"
      = ([("/home/u/b.txt", 2)], 1) := by
  refine ⟨by decide, ?_⟩
  rw [(claim_C6_remove_from_context
    [("/home/u/a.py", (1 : Nat)), ("/home/u/b.txt", 2)] "*.py" (by decide)).2 (by decide)]
  decide

/-- Dict assignment with a fresh key appends at the end. -/
theorem upsertKey_of_not_mem {α : Type} (k : String) (v : α) :
    ∀ acc : List (String × α), k ∉ acc.map Prod.fst →
      upsertKey acc k v = acc ++ [(k, v)] := by
  intro acc
  induction acc with
  | nil => intro _; rfl
  | cons kv rest ih =>
    obtain ⟨k0, v0⟩ := kv
    intro h
    have h0 : k0 ≠ k := fun e => h (by rw [e]; exact List.mem_cons_self k _)
    show (if k0 = k then (k, v) :: rest else (k0, v0) :: upsertKey rest k v) = _
    rw [if_neg h0, ih (fun hm => h (List.mem_cons_of_mem _ hm))]
    rfl

/-- Building files_for_upload by dict assignment per successful read is,
for unique keys, the filterMap of the fresh reads appended in order. -/
theorem foldl_read_upsert {P : Type} (readFile : P → Option String) :
    ∀ (files : List (String × P)) (acc : List (String × String)),
      ((acc.map Prod.fst) ++ (files.map Prod.fst)).Nodup →
      files.foldl (fun a kv =>
        match readFile kv.2 with
        | some c => upsertKey a kv.1 c
        | none => a) acc
        = acc ++ files.filterMap (fun kv => (readFile kv.2).map (fun c => (kv.1, c))) := by
  intro files
  induction files with
  | nil => intro acc _; simp
  | cons kv rest ih =>
    obtain ⟨k0, p0⟩ := kv
    intro acc hnd
    rw [List.foldl_cons]
    cases hr : readFile p0 with
    | none =>
      have hnd' : ((acc.map Prod.fst) ++ (rest.map Prod.fst)).Nodup := by
        refine List.Nodup.sublist ?_ hnd
        exact List.Sublist.append_left (List.sublist_cons_self k0 _) _
      show List.foldl (fun a kv =>
          match readFile kv.2 with
          | some c => upsertKey a kv.1 c
          | none => a) acc rest = _
      rw [ih acc hnd']
      simp [List.filterMap_cons, hr]
    | some c =>
      have hk0 : k0 ∉ acc.map Prod.fst := by
        intro hm
        exact List.disjoint_of_nodup_append hnd hm (by
          rw [List.map_cons]; exact List.mem_cons_self k0 _)
      show List.foldl (fun a kv =>
          match readFile kv.2 with
          | some c => upsertKey a kv.1 c
          | none => a) (upsertKey acc k0 c) rest = _
      rw [upsertKey_of_not_mem k0 c acc hk0]
      have hndstep : (((acc ++ [(k0, c)]).map Prod.fst) ++ (rest.map Prod.fst)).Nodup := by
        rw [List.map_append, List.append_assoc]
        simpa using hnd
      rw [ih (acc ++ [(k0, c)]) hndstep]
      simp [List.filterMap_cons, hr, List.append_assoc]

/-- C2 (counterexample): with one file in context whose fresh read yields
"data" and no pastes, the composed outbound query string is exactly the
user question "hello" — the file's content is not contained in the query
at all (it travels in the separate files mapping), contradicting the
claim that the query embeds every file's content in a fenced block. -/
theorem claim_C2_counterexample :
    compose_outbound_request (P := String) (fun _ => some "data")
      [("/home/user/a.txt", "/home/user/a.txt")] [] "hello"
      = ⟨"hello", some [("/home/user/a.txt", "data")]⟩ ∧
    containsChars "hello".data "data".data = false := ⟨by decide, by decide⟩

/-- C2 (amended): the request sends file contents out of band — each
file's content is freshly read at composition time into the files mapping
keyed by its stored display key, reads that fail being skipped and the
mapping omitted when empty — while the composed query string consists of
the paste blocks in insertion order (each labeled with its paste ID),
joined by blank lines, then the separator line, then the literal user
question; with no pastes the query is the question unmodified. -/
theorem claim_C2_amended {P : Type} (readFile : P → Option String)
    (context_files : List (String × P)) (paste_contexts : List (String × PasteEntry))
    (query : String) (hnd : (context_files.map Prod.fst).Nodup) :
    (compose_outbound_request readFile context_files paste_contexts query).final_query
      = (if paste_contexts = [] then query
         else String.intercalate "\n" (paste_contexts.map pastePart) ++
           "\n--- User Question ---\n" ++ query) ∧
    (compose_outbound_request readFile context_files paste_contexts query).files
      = (if context_files.filterMap
            (fun kv => (readFile kv.2).map (fun c => (kv.1, c))) = []
         then none
         else some (context_files.filterMap
            (fun kv => (readFile kv.2).map (fun c => (kv.1, c))))) := by
  have hfold := foldl_read_upsert readFile context_files [] (by simpa using hnd)
  rw [List.nil_append] at hfold
  constructor
  · show (if paste_contexts.length > 0 then _ else query) = _
    rcases paste_contexts with _ | ⟨x, xs⟩
    · rfl
    · rw [if_pos (by simp), if_neg (by simp)]
  · show (if (List.foldl (fun a kv =>
          match readFile kv.2 with
          | some c => upsertKey a kv.1 c
          | none => a) [] context_files).length > 0
        then some (List.foldl (fun a kv =>
          match readFile kv.2 with
          | some c => upsertKey a kv.1 c
          | none => a) [] context_files) else none) = _
    rw [hfold]
    rcases h : context_files.filterMap
        (fun kv => (readFile kv.2).map (fun c => (kv.1, c))) with _ | ⟨y, ys⟩
    · rw [h]; rfl
    · rw [h]; simp

/-- Concrete check of the amended claim C2: one readable file and one
paste; the query embeds only the paste and the question, the file content
rides in the files mapping. -/
theorem claim_C2_witness :
    (((([("/home/u/a.txt", 7)] : List (String × Nat))).map Prod.fst).Nodup) ∧
    (compose_outbound_request (fun _ => some "data") [("/home/u/a.txt", 7)]
        [("paste_001", ⟨"pasted", 0, 1, 6⟩)] "why?").final_query
      = "--- Context: paste_001 ---\npasted\n\n--- User Question ---\nwhy?" ∧
    (compose_outbound_request (fun _ => some "data") [("/home/u/a.txt", 7)]
        [("paste_001", ⟨"pasted", 0, 1, 6⟩)] "why?").files
      = some [("/home/u/a.txt", "data")] := by
  have h := claim_C2_amended (P := Nat) (fun _ => some "data") [("/home/u/a.txt", 7)]
    [("paste_001", ⟨"pasted", 0, 1, 6⟩)] "why?" (by decide)
  refine ⟨by decide, ?_, ?_⟩
  · rw [h.1]; decide
  · rw [h.2]; decide

/-- A successful key-membership test guarantees the lookup succeeds. -/
theorem lookupKey_isSome_of_any {α : Type} (s : String) :
    ∀ fs : List (String × α), fs.any (fun kv => kv.1 == s) = true →
      ∃ v, lookupKey fs s = some v := by
  intro fs
  induction fs with
  | nil => intro h; simp [List.any_nil] at h
  | cons kv rest ih =>
    obtain ⟨k0, v0⟩ := kv
    intro h
    show ∃ v, (if k0 = s then some v0 else lookupKey rest s) = some v
    by_cases he : k0 = s
    · rw [if_pos he]; exact ⟨v0, rfl⟩
    · rw [if_neg he]
      refine ih ?_
      simp only [List.any_cons] at h
      rw [show ((k0, v0).1 == s) = (k0 == s) from rfl,
        beq_eq_false_iff_ne.mpr he, Bool.false_or] at h
      exact h

/-- C7 (counterexample): the plain-string response "text" — one of the
recognized input shapes — makes the membership test succeed and the
subsequent subscription resp['text'] raise TypeError, so extraction
raises past its boundary instead of returning a string. -/
theorem claim_C7_counterexample :
    extract_answer_from_response (fun _ => none) (PyVal.pystr "text")
      = Except.error PyErr.typeError := rfl

/-- C7 (amended): for an absent/falsy response or a mapping response (of
any contents), extraction never raises past its boundary — every internal
failure is absorbed into a returned value (the fixed error strings, or the
raw string on a JSON parse failure); the returned value is the extracted
answer, which need not be a string when the final step's nested answer
field is itself a non-string; truthy non-mapping responses can raise
TypeError. -/
theorem claim_C7_amended (jsonLoads : String → Option PyVal) (resp : PyVal)
    (h : pyTruthy resp = false ∨ ∃ fs, resp = PyVal.pydict fs) :
    ∃ v, extract_answer_from_response jsonLoads resp = Except.ok v := by
  rcases h with hf | ⟨fs, rfl⟩
  · unfold extract_answer_from_response
    rw [hf]
    exact ⟨_, rfl⟩
  · unfold extract_answer_from_response
    by_cases ht : pyTruthy (PyVal.pydict fs)
    · rw [ht]
      show ∃ v, (match pyContainsStr (PyVal.pydict fs) "text" with
        | .error e => .error e
        | .ok b => _) = Except.ok v
      by_cases hb : fs.any (fun kv => kv.1 == "text") = true
      · rw [show pyContainsStr (PyVal.pydict fs) "text"
            = .ok true from by simp [pyContainsStr, hb]]
        obtain ⟨v, hv⟩ := lookupKey_isSome_of_any "text" fs hb
        show ∃ w, (if !true then _ else
          match pySubscriptStr (PyVal.pydict fs) "text" with
          | .error e => .error e
          | .ok text_content => _) = Except.ok w
        rw [show pySubscriptStr (PyVal.pydict fs) "text" = .ok v from by
          simp [pySubscriptStr, hv]]
        cases v <;> exact ⟨_, rfl⟩
      · have hb' : fs.any (fun kv => kv.1 == "text") = false := Bool.of_not_eq_true hb
        rw [show pyContainsStr (PyVal.pydict fs) "text" = .ok false from by
          rw [show pyContainsStr (PyVal.pydict fs) "text"
            = .ok (fs.any (fun kv => kv.1 == "text")) from rfl, hb']]
        exact ⟨_, rfl⟩
    · rw [Bool.of_not_eq_true ht]
      exact ⟨_, rfl⟩

/-- Concrete check of the amended claim C7 at an absent (falsy) response:
extraction returns a value, not an exception. -/
theorem claim_C7_witness :
    (pyTruthy PyVal.pynone = false ∨ ∃ fs, PyVal.pynone = PyVal.pydict fs) ∧
    ∃ v, extract_answer_from_response (fun _ => none) PyVal.pynone = Except.ok v :=
  ⟨Or.inl rfl, claim_C7_amended (fun _ => none) PyVal.pynone (Or.inl rfl)⟩

/-- C8: a nonempty steps list with no FINAL step makes extraction return
the stringified content of the last step (not an error); a present but
empty steps list returns the distinct "Error: Empty steps list" string,
which differs from the "Error: No response from API" string. -/
theorem claim_C8_last_step_fallback (jsonLoads : String → Option PyVal)
    (steps : List PyVal) (lfs : List (String × PyVal)) (c : PyVal)
    (hnf : ∀ s ∈ steps, finalStepB s = false)
    (hlast : steps.getLast? = some (PyVal.pydict lfs))
    (hc : lookupKey lfs "content" = some c) :
    extract_answer_from_response jsonLoads
        (PyVal.pydict [("text", PyVal.pylist steps)])
      = Except.ok (PyVal.pystr (pyToStr c)) ∧
    extract_answer_from_response jsonLoads
        (PyVal.pydict [("text", PyVal.pylist [])])
      = Except.ok (PyVal.pystr "Error: Empty steps list") ∧
    "Error: Empty steps list" ≠ "Error: No response from API" := by
  refine ⟨?_, rfl, by decide⟩
  have hfb : lastStepFallback steps = PyVal.pystr (pyToStr c) := by
    simp only [lastStepFallback, hlast, hc]
  show Except.ok (extractFromSteps jsonLoads steps)
    = Except.ok (PyVal.pystr (pyToStr c))
  unfold extractFromSteps
  rw [List.find?_eq_none.mpr (fun x hx hpx => by rw [hnf x hx] at hpx; cases hpx)]
  show Except.ok (lastStepFallback steps) = _
  rw [hfb]

/-- Concrete check of claim C8: one step, not FINAL, with string content
"hello": extraction returns "hello". -/
theorem claim_C8_witness :
    extract_answer_from_response (fun _ => none)
      (PyVal.pydict [("text",
        PyVal.pylist [PyVal.pydict [("content", PyVal.pystr "hello")]])])
      = Except.ok (PyVal.pystr "hello") := by
  have h := claim_C8_last_step_fallback (fun _ => none)
    [PyVal.pydict [("content", PyVal.pystr "hello")]]
    [("content", PyVal.pystr "hello")] (PyVal.pystr "hello")
    (by
      intro s hs
      rw [List.mem_singleton] at hs
      rw [hs]
      rfl)
    rfl rfl
  exact h.1

/-- C9 (code bug): with one stored paste and no file entries, list_context
prints exactly the context header and nothing else — the paste rows (ID,
line count, size, time ago) are emitted only inside the has_files branch,
so a store with pastes but no files never displays its pastes, for any
size formatter, stat oracle, display oracle, clock and entry. -/
theorem claim_C9_pastes_hidden_without_files (formatSize : Nat → String)
    (statSize : Nat → Nat) (relToHome : Nat → Option String) (now : Nat)
    (entry : PasteEntry) :
    list_context formatSize statSize relToHome now ([] : List (String × Nat))
      [("paste_001", entry)]
      = ["[bold cyan]📋 Context (" ++ natToString 1 ++ " items, " ++
          formatSize entry.size ++ ")[/bold cyan]"] := by
  show [("[bold cyan]📋 Context (" ++ natToString (0 + 1) ++ " items, " ++
      formatSize (0 + (entry.size + 0)) ++ ")[/bold cyan]")] = _
  simp

end MinimalTerminalAI
